import Mathlib

/-!
Shallow embedding of the SLR-Automation repository (two Python scripts:
`main.py`, the deduplication pipeline, and `inclusion and exclusion.py`,
the year/publication-type filter pipeline), together with a verification
of the specification's claims about them.

Text is modelled as lists of Unicode code points (`List Nat`); pandas
cells that may be NaN are modelled as `Option`; the Crossref lookup
(an HTTP call) is modelled as an explicit oracle parameter.
-/

/-- Text is modelled as a list of Unicode code points. -/
abbrev Str := List Nat

/-- Code points of a Lean string literal; used to write the Python string
literals appearing in the source. -/
def codes (s : String) : Str := s.toList.map Char.toNat

/-- Python regex `\s` (and `str.strip`, `str.isspace`) on the ASCII range:
space, tab, LF, CR, VT, FF. -/
def isWS (c : Nat) : Bool :=
  decide (c = 32 ∨ c = 9 ∨ c = 10 ∨ c = 13 ∨ c = 11 ∨ c = 12)

/-- Python `str.lower` on one code point (ASCII range). -/
def lowerCp (c : Nat) : Nat := if 65 ≤ c ∧ c ≤ 90 then c + 32 else c

/-- Python `str.lower`. -/
def lowerStr (s : Str) : Str := s.map lowerCp

/-- Leading-whitespace removal (the left half of Python `str.strip`). -/
def stripL (s : Str) : Str := s.dropWhile isWS

/-- Trailing-whitespace removal (the right half of Python `str.strip`). -/
def stripR (s : Str) : Str := (s.reverse.dropWhile isWS).reverse

/-- Python `str.strip`. -/
def strip (s : Str) : Str := stripR (stripL s)

/-- Single pass implementing `re.sub(r"\s+", " ", s)`: each maximal run of
whitespace is replaced by one space.  The flag records whether we are
currently inside a whitespace run (whose single space was already emitted). -/
def collapseAux : Bool → Str → Str
  | _, [] => []
  | inRun, c :: rest =>
    if isWS c then
      if inRun then collapseAux true rest else 32 :: collapseAux true rest
    else c :: collapseAux false rest

/-- `re.sub(r"\s+", " ", s)`. -/
def collapseWS (s : Str) : Str := collapseAux false s

/-- A Python value reaching `normalize_text` / truthiness tests:
`None`, a float NaN (a missing pandas cell), or a string. -/
inductive PyVal where
  | none
  | nan
  | str (s : Str)
deriving DecidableEq, Repr

/-- Python `str(v)` for the values above (`str(None) = "None"`,
`str(float("nan")) = "nan"`). -/
def pyStr : PyVal → Str
  | .none => codes "None"
  | .nan => codes "nan"
  | .str s => s

/-- `normalize_text` of main.py line 44-45:
`re.sub(r"\s+", " ", str(text).lower().strip())`. -/
def normalize_text (s : Str) : Str := collapseWS (strip (lowerStr s))

/-- `normalize_text` applied to an arbitrary Python value (the `str(text)`
step made explicit). -/
def normalize_textV (v : PyVal) : Str := normalize_text (pyStr v)

/-- The head of the list, if any, is not whitespace. -/
def noLeadWS : Str → Bool
  | [] => true
  | c :: _ => !isWS c

/-- No two adjacent whitespace code points. -/
def noAdjWS : Str → Bool
  | c1 :: c2 :: rest => (!isWS c1 || !isWS c2) && noAdjWS (c2 :: rest)
  | _ => true

/-- Every whitespace code point is an actual space (32). -/
def wsAllSpace (s : Str) : Bool := s.all fun c => !isWS c || c == 32

/-- Every code point is a fixed point of lowering. -/
def lowerFixedB (s : Str) : Bool := s.all fun c => lowerCp c == c

/-- A string in the canonical form produced by `normalize_text`: lowercase,
no leading or trailing whitespace, and all whitespace runs collapsed to a
single space. -/
def NormalizedB (s : Str) : Bool :=
  wsAllSpace s && noAdjWS s && noLeadWS s && noLeadWS s.reverse && lowerFixedB s

/-! ## Records and the deduplicator (main.py) -/

/-- A bibliographic record: an ordered field-name/value map (a pandas row in
the CSV pipeline, a bibtexparser entry dict in the BibTeX pipeline). -/
abbrev Rec := List (Str × PyVal)

/-- Python `entry.get(field, default)`. -/
def getField (e : Rec) (f : Str) (d : PyVal) : PyVal :=
  match e.find? (fun kv => decide (kv.1 = f)) with
  | some kv => kv.2
  | Option.none => d

/-- The deduplication identity key: either the DOI alone, or the full
five-field tuple (`get_unique_key`, main.py lines 47-56). -/
inductive UKey where
  | doiOnly (d : Str)
  | full (title author publication doi url : Str)
deriving DecidableEq, Repr

/-- `get_unique_key(entry, use_only_doi)` of main.py lines 47-56. -/
def get_unique_key (use_only_doi : Bool) (entry : Rec) : UKey :=
  if use_only_doi then
    .doiOnly (normalize_text (pyStr (getField entry (codes "doi") (.str []))))
  else
    .full
      (normalize_text (pyStr (getField entry (codes "title") (.str []))))
      (normalize_text (pyStr (getField entry (codes "author") (.str []))))
      (normalize_text (pyStr (getField entry (codes "publication") (.str []))))
      (normalize_text (pyStr (getField entry (codes "doi") (.str []))))
      (normalize_text (pyStr (getField entry (codes "url") (.str []))))

/-- Lookup in an insertion-ordered key/record map (Python dict access). -/
def alookup (l : List (UKey × Rec)) (k : UKey) : Option Rec :=
  match l with
  | [] => Option.none
  | p :: rest => if p.1 = k then some p.2 else alookup rest k

/-- The deduplicator's mutable state: `unique_entries` (a dict, modelled as
an insertion-ordered association list), `duplicate_count`, `total_count`
(main.py lines 58-60). -/
structure DedupState where
  unique_entries : List (UKey × Rec)
  duplicate_count : Nat
  total_count : Nat
deriving DecidableEq, Repr

def initDedup : DedupState := ⟨[], 0, 0⟩

/-- One iteration of the dedup loop body (main.py lines 74-80, identical for
CSV rows and BibTeX entries): bump the total, then insert the record under
its key if the key is fresh, else count a duplicate. -/
def dedupIngest (use_only_doi : Bool) (st : DedupState) (r : Rec) : DedupState :=
  let key := get_unique_key use_only_doi r
  let st1 : DedupState := { st with total_count := st.total_count + 1 }
  if key ∈ st1.unique_entries.map Prod.fst then
    { st1 with duplicate_count := st1.duplicate_count + 1 }
  else
    { st1 with unique_entries := st1.unique_entries ++ [(key, r)] }

/-- The dedup loop over one input file's records. -/
def dedupRows (use_only_doi : Bool) (st : DedupState) (rows : List Rec) : DedupState :=
  rows.foldl (dedupIngest use_only_doi) st

/-- A whole dedup run: the dedup state plus `file_entry_counts`
(main.py lines 61, 81, 104). -/
structure DedupRun where
  st : DedupState
  file_entry_counts : List (Str × Nat)
deriving DecidableEq, Repr

/-- The dedup pipeline over a sequence of input files, each a
(basename, records) pair, in directory-listing order
(main.py lines 63-104; the per-file loop increments `file_total` once per
record, so it ends at the record count of the file). -/
def dedupFiles (use_only_doi : Bool) (files : List (Str × List Rec)) : DedupRun :=
  files.foldl
    (fun acc f =>
      { st := dedupRows use_only_doi acc.st f.2,
        file_entry_counts := acc.file_entry_counts ++ [(f.1, f.2.length)] })
    ⟨initDedup, []⟩

/-! ## The required-columns check of the dedup pipeline (main.py 68-70) -/

/-- A Python value appearing in the `and`-chain of the column check: a string
literal or a bool. -/
inductive PyB where
  | vstr (s : Str)
  | vbool (b : Bool)
deriving DecidableEq, Repr

/-- Python truthiness of such a value. -/
def pyTruthyB : PyB → Bool
  | .vstr s => !s.isEmpty
  | .vbool b => b

/-- Python `x and y`: returns `x` if `x` is falsy, else `y`. -/
def pyAnd (x y : PyB) : PyB := if pyTruthyB x then y else x

def REQUIRED_FIELDS : List Str :=
  [codes "title", codes "author", codes "publication", codes "doi", codes "url"]

/-- `normalize_columns` of main.py lines 35-42 applied to the column-name
list: a column whose lowercased, space-stripped form equals one of the
required canonical names is renamed to that form; others are kept as-is. -/
def normalize_columns (cols : List Str) : List Str :=
  cols.map fun col =>
    let cleaned := (lowerStr col).filter (fun c => !(c == 32))
    if REQUIRED_FIELDS.contains cleaned then cleaned else col

/-- The value of the Python expression on main.py line 68,
`'title' and 'author' and 'publication' and 'doi' and 'url' not in df.columns`
(`not in` binds tighter than `and`; `and` is left-associative). -/
def requiredColumnsCheck (cols : List Str) : PyB :=
  pyAnd
    (pyAnd
      (pyAnd
        (pyAnd (.vstr (codes "title")) (.vstr (codes "author")))
        (.vstr (codes "publication")))
      (.vstr (codes "doi")))
    (.vbool (!(cols.contains (codes "url"))))

/-! ## The filter pipeline (inclusion and exclusion.py) -/

/-- Outcome of the HTTP request/JSON decode in `get_publication_type`
(lines 60-80): transport failure or malformed body or missing "message" key
(all caught and mapped to "Unknown"); a "message" object without a "type"
key (defaulted to the string "unknown"); or a "type" string. -/
inductive LookupResp where
  | fail
  | noType
  | typeStr (t : Str)

/-- The Crossref works endpoint as an oracle: cleaned DOI to response. -/
abbrev Oracle := Str → LookupResp

/-- The DOI-cleaning step of `get_publication_type` (lines 56-58):
`urlparse(doi).path.lstrip('/')` for an `http(s)://host/path` shaped DOI,
modelled as dropping the scheme, the host up to the first `/`, and then
leading slashes (query/fragment parts are out of the model's scope). -/
def cleanDoi (d : Str) : Str :=
  if (codes "http://").isPrefixOf d then
    ((d.drop 7).dropWhile (fun c => !(c == 47))).dropWhile (fun c => c == 47)
  else if (codes "https://").isPrefixOf d then
    ((d.drop 8).dropWhile (fun c => !(c == 47))).dropWhile (fun c => c == 47)
  else d

/-- The Crossref-type-to-category mapping of lines 69-75; the input is the
already-lowercased type string. -/
def mapCrossref (pub_type : Str) : Str :=
  if pub_type = codes "journal-article" ∨ pub_type = codes "article" then
    codes "Original Research"
  else if pub_type = codes "proceedings-article" ∨ pub_type = codes "conference-paper"
      ∨ pub_type = codes "conference" then
    codes "Conference Paper"
  else codes "Other"

/-- `get_publication_type(doi)` of lines 50-80.  `Option.none` models a NaN
argument (`pd.isna`); the empty string is falsy (`not doi`). -/
def get_publication_type (oracle : Oracle) (doi : Option Str) : Str :=
  match doi with
  | Option.none => codes "Unknown"
  | some d =>
    if d.isEmpty then codes "Unknown"
    else
      match oracle (cleanDoi d) with
      | .fail => codes "Unknown"
      | .noType => mapCrossref (lowerStr (codes "unknown"))
      | .typeStr t => mapCrossref (lowerStr t)

/-- Bool substring test, Python `pat in s`. -/
def containsSub (pat s : Str) : Bool :=
  match s with
  | [] => pat.isEmpty
  | _ :: rest => pat.isPrefixOf s || containsSub pat rest

/-- A CSV row as seen by the filter loop: the year cell after the file-wide
`pd.to_numeric(..., errors='coerce')` coercion (None = NaN), and the raw
DOI / type cells (None = NaN). -/
structure CsvRow where
  year : Option Int
  doi : Option Str
  ty : Option Str
deriving DecidableEq, Repr

/-- The year-range test of line 119 (`(year >= start) & (year <= current)`;
NaN compares false). -/
def yearInRange (start_year current_year : Int) (y : Option Int) : Bool :=
  match y with
  | Option.none => false
  | some v => decide (start_year ≤ v) && decide (v ≤ current_year)

/-- The fallback heuristic of lines 131-136: substring-match the lowercased
free-text type cell; on no match the classification is left unchanged. -/
def fallbackType (pub_type : Str) (cell : Str) : Str :=
  let type_str := lowerStr cell
  if containsSub (codes "journal") type_str || containsSub (codes "article") type_str then
    codes "Original Research"
  else if containsSub (codes "conference") type_str || containsSub (codes "proceeding") type_str then
    codes "Conference Paper"
  else pub_type

/-- The DOI-lookup half of the CSV classification (lines 123-128): the type
obtained from the DOI when a DOI column exists and the cell is not NaN,
otherwise the initial "Unknown". -/
def doiPathType (oracle : Oracle) (doi_col : Bool) (r : CsvRow) : Str :=
  if doi_col && r.doi.isSome then get_publication_type oracle r.doi
  else codes "Unknown"

/-- The classification a CSV row ends up with after lines 123-136: DOI path
first, then the fallback heuristic when the result is still "Unknown", a
type column exists, and the cell is not NaN. -/
def classifyCsvRow (oracle : Oracle) (doi_col type_col : Bool) (r : CsvRow) : Str :=
  let pub_type := doiPathType oracle doi_col r
  if pub_type == codes "Unknown" && type_col && r.ty.isSome then
    fallbackType pub_type (r.ty.getD [])
  else pub_type

/-- Retention test of lines 140 / 187:
`pub_type in ['Original Research', 'Conference Paper']`. -/
def acceptedB (pub_type : Str) : Bool :=
  pub_type == codes "Original Research" || pub_type == codes "Conference Paper"

/-- `defaultdict(int)` increment `tally[key] += 1` on an insertion-ordered
count map. -/
def bump : List (Str × Nat) → Str → List (Str × Nat)
  | [], k => [(k, 1)]
  | p :: rest, k => if p.1 = k then (p.1, p.2 + 1) :: rest else p :: bump rest k

/-- Sum of all counts in a tally. -/
def tallySum (t : List (Str × Nat)) : Nat := (t.map Prod.snd).sum

/-- Per-file statistics entry (lines 148-152 / 202-206). -/
structure FileStats where
  total : Nat
  filtered : Nat
  ignored : Nat
deriving DecidableEq, Repr

/-- The filter pipeline's aggregate state over CSV files (lines 87-91):
retained rows, per-file stats, grand totals, and the publication-type tally. -/
structure CsvState where
  filtered_entries : List CsvRow
  file_stats : List (Str × FileStats)
  total_found : Nat
  total_filtered : Nat
  publication_types : List (Str × Nat)
deriving DecidableEq, Repr

def initCsvState : CsvState := ⟨[], [], 0, 0, []⟩

/-- One CSV input file after column detection (lines 98-113): its basename,
whether a year / doi / type column was found, and its rows. -/
structure CsvFile where
  name : Str
  has_year_col : Bool
  doi_col : Bool
  type_col : Bool
  rows : List CsvRow
deriving DecidableEq, Repr

/-- Body of the per-row loop of lines 122-141, threading the tally and the
`final_filtered` accumulator. -/
def csvStep (oracle : Oracle) (doi_col type_col : Bool)
    (acc : List (Str × Nat) × List CsvRow) (r : CsvRow) :
    List (Str × Nat) × List CsvRow :=
  let pub_type := classifyCsvRow oracle doi_col type_col r
  (bump acc.1 pub_type, if acceptedB pub_type then acc.2 ++ [r] else acc.2)

/-- Processing of one CSV file (lines 94-154): skip the file when no year
column was found; otherwise filter by year, classify and tally each
surviving row, and record stats/totals only when at least one row passed. -/
def processCsvFile (oracle : Oracle) (start_year current_year : Int)
    (st : CsvState) (f : CsvFile) : CsvState :=
  if !f.has_year_col then st
  else
    let total_refs := f.rows.length
    let year_filtered := f.rows.filter fun r => yearInRange start_year current_year r.year
    let res := year_filtered.foldl (csvStep oracle f.doi_col f.type_col) (st.publication_types, [])
    let filtered_refs := res.2.length
    if 0 < filtered_refs then
      { filtered_entries := st.filtered_entries ++ res.2
        file_stats := st.file_stats ++ [(f.name, ⟨total_refs, filtered_refs, total_refs - filtered_refs⟩)]
        total_found := st.total_found + total_refs
        total_filtered := st.total_filtered + filtered_refs
        publication_types := res.1 }
    else { st with publication_types := res.1 }

/-- The CSV filter pipeline over all input files. -/
def processCsvFiles (oracle : Oracle) (start_year current_year : Int)
    (files : List CsvFile) : CsvState :=
  files.foldl (processCsvFile oracle start_year current_year) initCsvState

/-! ## The BibTeX filter pipeline (inclusion and exclusion.py, lines 165-220) -/

/-- A BibTeX entry: an ordered field-name/value map of strings. -/
abbrev BibEntry := List (Str × Str)

/-- Python `entry.get(field, default)` on a BibTeX entry. -/
def entryGet (e : BibEntry) (f : Str) (d : Str) : Str :=
  match e.find? (fun kv => decide (kv.1 = f)) with
  | some kv => kv.2
  | Option.none => d

/-- Python `entry[field] = value` on a dict: overwrite the existing field,
else append it (insertion order preserved). -/
def setField (e : BibEntry) (k v : Str) : BibEntry :=
  if e.any (fun kv => decide (kv.1 = k)) then
    e.map fun kv => if kv.1 = k then (kv.1, v) else kv
  else e ++ [(k, v)]

/-- A decimal-digit code point. -/
def pyDigit (c : Nat) : Bool := decide (48 ≤ c ∧ c ≤ 57)

/-- Python `int(...)` on an all-digit string: `none` when empty or any
non-digit appears. -/
def pyIntDigits (s : Str) : Option Nat :=
  if !s.isEmpty && s.all pyDigit then
    some (s.foldl (fun a c => a * 10 + (c - 48)) 0)
  else Option.none

/-- Python `int(s)` on an already-stripped string: an optional sign followed
by digits, `none` (a `ValueError`) otherwise.  Numeric underscores and
non-ASCII digits are out of the model's scope. -/
def pyInt (s : Str) : Option Int :=
  match s with
  | 43 :: rest => (pyIntDigits rest).map fun n => (n : Int)
  | 45 :: rest => (pyIntDigits rest).map fun n => -(n : Int)
  | _ => (pyIntDigits s).map fun n => (n : Int)

/-- `int(entry.get('year', '').strip())` of line 178, as an option. -/
def bibYear (e : BibEntry) : Option Int :=
  pyInt (strip (entryGet e (codes "year") []))

/-- Whether a BibTeX entry's year parses and lies in range (lines 178-179). -/
def bibYearOkB (start_year current_year : Int) (e : BibEntry) : Bool :=
  match bibYear e with
  | Option.none => false
  | some y => decide (start_year ≤ y) && decide (y ≤ current_year)

/-- Body of the per-entry loop of lines 176-196, threading the tally and the
`filtered` accumulator.  A `ValueError` from the year parse skips the entry. -/
def bibStep (oracle : Oracle) (start_year current_year : Int)
    (acc : List (Str × Nat) × List BibEntry) (e : BibEntry) :
    List (Str × Nat) × List BibEntry :=
  match bibYear e with
  | Option.none => acc
  | some year =>
    if decide (start_year ≤ year) && decide (year ≤ current_year) then
      let doi := entryGet e (codes "doi") []
      if !doi.isEmpty then
        let pub_type := get_publication_type oracle (some doi)
        let tally := bump acc.1 pub_type
        if acceptedB pub_type then
          (tally, acc.2 ++ [setField e (codes "publication_type") pub_type])
        else (tally, acc.2)
      else (bump acc.1 (codes "No DOI"), acc.2)
    else acc

/-- The label a year-accepted BibTeX entry contributes to the tally, if any
(spec-level reading of the loop: "No DOI" when the DOI is absent/empty, the
looked-up category otherwise; entries with unparsable or out-of-range years
contribute nothing). -/
def bibTag (oracle : Oracle) (start_year current_year : Int) (e : BibEntry) : Option Str :=
  if bibYearOkB start_year current_year e then
    let doi := entryGet e (codes "doi") []
    some (if !doi.isEmpty then get_publication_type oracle (some doi) else codes "No DOI")
  else Option.none

/-- The classification a BibTeX entry gets in the loop, as a total function:
"No DOI" when the DOI field is absent or empty, else the DOI lookup result. -/
def classifyBibDoi (oracle : Oracle) (e : BibEntry) : Str :=
  let doi := entryGet e (codes "doi") []
  if doi.isEmpty then codes "No DOI" else get_publication_type oracle (some doi)

/-- The retained/augmented entry a BibTeX entry produces, if any
(spec-level reading of lines 178-196). -/
def bibKeep (oracle : Oracle) (start_year current_year : Int) (e : BibEntry) : Option BibEntry :=
  if bibYearOkB start_year current_year e && acceptedB (classifyBibDoi oracle e) then
    some (setField e (codes "publication_type") (classifyBibDoi oracle e))
  else Option.none

/-- The filter pipeline's aggregate state over BibTeX files. -/
structure BibState where
  filtered_entries : List BibEntry
  file_stats : List (Str × FileStats)
  total_found : Nat
  total_filtered : Nat
  publication_types : List (Str × Nat)
deriving DecidableEq, Repr

def initBibState : BibState := ⟨[], [], 0, 0, []⟩

/-- One BibTeX input file: its basename and entries. -/
structure BibFile where
  name : Str
  entries : List BibEntry
deriving DecidableEq, Repr

/-- Processing of one BibTeX file (lines 166-208): classify and tally each
entry, and record stats/totals only when at least one entry was retained. -/
def processBibFile (oracle : Oracle) (start_year current_year : Int)
    (st : BibState) (f : BibFile) : BibState :=
  let total_refs := f.entries.length
  let res := f.entries.foldl (bibStep oracle start_year current_year) (st.publication_types, [])
  let filtered_refs := res.2.length
  if 0 < filtered_refs then
    { filtered_entries := st.filtered_entries ++ res.2
      file_stats := st.file_stats ++ [(f.name, ⟨total_refs, filtered_refs, total_refs - filtered_refs⟩)]
      total_found := st.total_found + total_refs
      total_filtered := st.total_filtered + filtered_refs
      publication_types := res.1 }
  else { st with publication_types := res.1 }

/-- The BibTeX filter pipeline over all input files. -/
def processBibFiles (oracle : Oracle) (start_year current_year : Int)
    (files : List BibFile) : BibState :=
  files.foldl (processBibFile oracle start_year current_year) initBibState

/-! ## Lemmas: the shape of `normalize_text` output -/

theorem lowerCp_pos {c : Nat} (h : 65 ≤ c ∧ c ≤ 90) : lowerCp c = c + 32 := by
  simp [lowerCp, h]

theorem lowerCp_neg {c : Nat} (h : ¬(65 ≤ c ∧ c ≤ 90)) : lowerCp c = c := by
  simp [lowerCp, h]

theorem lowerCp_idem (c : Nat) : lowerCp (lowerCp c) = lowerCp c := by
  by_cases h : 65 ≤ c ∧ c ≤ 90
  · rw [lowerCp_pos h]
    exact lowerCp_neg (by omega)
  · rw [lowerCp_neg h, lowerCp_neg h]

theorem lowerStr_of_fixed {s : Str} (h : lowerFixedB s = true) : lowerStr s = s := by
  induction s with
  | nil => rfl
  | cons c rest ih =>
    simp only [lowerFixedB, List.all_cons, Bool.and_eq_true, beq_iff_eq] at h
    have hr : lowerStr rest = rest := ih (by simpa [lowerFixedB] using h.2)
    simp only [lowerStr, List.map_cons, h.1]
    simpa [lowerStr] using hr

theorem noLeadWS_dropWhile (l : Str) : noLeadWS (l.dropWhile isWS) = true := by
  induction l with
  | nil => rfl
  | cons c t ih =>
    rw [List.dropWhile_cons]
    cases h : isWS c with
    | true => simpa using ih
    | false => simp [noLeadWS, h]

theorem noLeadWS_stripL (s : Str) : noLeadWS (stripL s) = true :=
  noLeadWS_dropWhile s

theorem noLeadWS_append {x : Str} (y : Str) (hx : x ≠ []) :
    noLeadWS (x ++ y) = noLeadWS x := by
  cases x with
  | nil => exact absurd rfl hx
  | cons c t => rfl

theorem exists_dropWhile_eq (p : Nat → Bool) (l : Str) : ∃ t, t ++ l.dropWhile p = l := by
  induction l with
  | nil => exact ⟨[], rfl⟩
  | cons c r ih =>
    rw [List.dropWhile_cons]
    cases h : p c with
    | true =>
      obtain ⟨t, ht⟩ := ih
      exact ⟨c :: t, by simpa using ht⟩
    | false => exact ⟨[], by simp⟩

theorem stripR_append_eq (s : Str) : ∃ t, stripR s ++ t = s := by
  obtain ⟨t, ht⟩ := exists_dropWhile_eq isWS s.reverse
  refine ⟨t.reverse, ?_⟩
  have : (t ++ s.reverse.dropWhile isWS).reverse = s := by rw [ht, List.reverse_reverse]
  rw [List.reverse_append] at this
  exact this

theorem noLeadWS_stripR {s : Str} (h : noLeadWS s = true) : noLeadWS (stripR s) = true := by
  obtain ⟨t, ht⟩ := stripR_append_eq s
  cases hs : stripR s with
  | nil => rfl
  | cons c u =>
    rw [hs, List.cons_append] at ht
    rw [← ht] at h
    exact h

theorem noLeadWS_strip (x : Str) : noLeadWS (strip x) = true :=
  noLeadWS_stripR (noLeadWS_stripL x)

theorem noLeadWS_reverse_strip (x : Str) : noLeadWS (strip x).reverse = true := by
  show noLeadWS (stripR (stripL x)).reverse = true
  unfold stripR
  rw [List.reverse_reverse]
  exact noLeadWS_dropWhile _

theorem noAdjWS_cons (c : Nat) (v : Str) :
    noAdjWS (c :: v) = true ↔
      ((∀ e, v.head? = some e → (!isWS c || !isWS e) = true) ∧ noAdjWS v = true) := by
  cases v with
  | nil => simp [noAdjWS]
  | cons e t => simp [noAdjWS, Bool.and_eq_true]

theorem collapseAux_mem {c : Nat} (b : Bool) (s : Str) (h : c ∈ collapseAux b s) :
    c ∈ s ∨ c = 32 := by
  induction s generalizing b with
  | nil => simp [collapseAux] at h
  | cons d rest ih =>
    cases hd : isWS d with
    | true =>
      cases b with
      | true =>
        simp only [collapseAux, hd, if_true] at h
        rcases ih true h with h1 | h1
        · exact Or.inl (List.mem_cons_of_mem _ h1)
        · exact Or.inr h1
      | false =>
        simp only [collapseAux, hd, if_true, Bool.false_eq_true, if_false] at h
        rcases List.mem_cons.mp h with h1 | h1
        · exact Or.inr h1
        · rcases ih true h1 with h2 | h2
          · exact Or.inl (List.mem_cons_of_mem _ h2)
          · exact Or.inr h2
    | false =>
      simp only [collapseAux, hd, Bool.false_eq_true, if_false] at h
      rcases List.mem_cons.mp h with h1 | h1
      · exact Or.inl (h1 ▸ List.mem_cons_self _ _)
      · rcases ih false h1 with h2 | h2
        · exact Or.inl (List.mem_cons_of_mem _ h2)
        · exact Or.inr h2

theorem collapseAux_wsAllSpace (b : Bool) (s : Str) : wsAllSpace (collapseAux b s) = true := by
  induction s generalizing b with
  | nil => rfl
  | cons c rest ih =>
    cases h : isWS c with
    | true =>
      cases b with
      | true => simpa [collapseAux, h] using ih true
      | false =>
        have h32 : ((!isWS 32 || (32 == 32)) : Bool) = true := by decide
        have := ih true
        simp only [collapseAux, h, if_true, Bool.false_eq_true, if_false]
        simp only [wsAllSpace, List.all_cons, Bool.and_eq_true] at this ⊢
        exact ⟨h32, this⟩
    | false =>
      have := ih false
      simp only [collapseAux, h, Bool.false_eq_true, if_false]
      simp only [wsAllSpace, List.all_cons, Bool.and_eq_true] at this ⊢
      exact ⟨by simp [h], this⟩

theorem collapseAux_true_noLead (s : Str) : noLeadWS (collapseAux true s) = true := by
  induction s with
  | nil => rfl
  | cons c rest ih =>
    cases h : isWS c with
    | true => simpa [collapseAux, h] using ih
    | false => simp [collapseAux, h, noLeadWS]

theorem collapseAux_noAdj (b : Bool) (s : Str) : noAdjWS (collapseAux b s) = true := by
  induction s generalizing b with
  | nil => rfl
  | cons c rest ih =>
    cases h : isWS c with
    | true =>
      cases b with
      | true => simpa [collapseAux, h] using ih true
      | false =>
        simp only [collapseAux, h, if_true, Bool.false_eq_true, if_false]
        rw [noAdjWS_cons]
        refine ⟨?_, ih true⟩
        intro e he
        have hl := collapseAux_true_noLead rest
        cases hc : collapseAux true rest with
        | nil => rw [hc] at he; simp at he
        | cons e2 t =>
          rw [hc] at he
          simp only [List.head?_cons, Option.some.injEq] at he
          subst he
          rw [hc] at hl
          simp only [noLeadWS] at hl
          simp [hl]
    | false =>
      simp only [collapseAux, h, Bool.false_eq_true, if_false]
      rw [noAdjWS_cons]
      refine ⟨?_, ih false⟩
      intro e _
      simp [h]

theorem collapseAux_false_cons_ne_nil (c : Nat) (rest : Str) :
    collapseAux false (c :: rest) ≠ [] := by
  cases h : isWS c <;> simp [collapseAux, h]

theorem collapseAux_ne_nil {s : Str} (b : Bool) (hs : s ≠ [])
    (ht : noLeadWS s.reverse = true) : collapseAux b s ≠ [] := by
  induction s generalizing b with
  | nil => exact absurd rfl hs
  | cons c rest ih =>
    cases b with
    | false => exact collapseAux_false_cons_ne_nil c rest
    | true =>
      cases hws : isWS c with
      | false => simp [collapseAux, hws]
      | true =>
        have hr : rest ≠ [] := by
          intro he
          subst he
          simp [noLeadWS, hws] at ht
        have hrev : noLeadWS rest.reverse = true := by
          have he : (c :: rest).reverse = rest.reverse ++ [c] := by simp
          rw [he, noLeadWS_append [c] (by simpa using hr)] at ht
          exact ht
        simpa [collapseAux, hws] using ih true hr hrev

theorem collapseAux_noTrail (b : Bool) (s : Str) (h : noLeadWS s.reverse = true) :
    noLeadWS (collapseAux b s).reverse = true := by
  induction s generalizing b with
  | nil => rfl
  | cons c rest ih =>
    by_cases hr : rest = []
    · subst hr
      have hc : isWS c = false := by simpa [noLeadWS] using h
      cases b <;> simp [collapseAux, hc, noLeadWS]
    · have hrev : noLeadWS rest.reverse = true := by
        have he : (c :: rest).reverse = rest.reverse ++ [c] := by simp
        rw [he, noLeadWS_append [c] (by simpa using hr)] at h
        exact h
      cases hws : isWS c with
      | true =>
        cases b with
        | true => simpa [collapseAux, hws] using ih true hrev
        | false =>
          have hne : collapseAux true rest ≠ [] := collapseAux_ne_nil true hr hrev
          simp only [collapseAux, hws, if_true, Bool.false_eq_true, if_false]
          rw [List.reverse_cons, noLeadWS_append [32] (by simpa using hne)]
          exact ih true hrev
      | false =>
        have hne : collapseAux false rest ≠ [] := by
          cases rest with
          | nil => exact absurd rfl hr
          | cons d t => exact collapseAux_false_cons_ne_nil d t
        simp only [collapseAux, hws, Bool.false_eq_true, if_false]
        rw [List.reverse_cons, noLeadWS_append [c] (by simpa using hne)]
        exact ih false hrev

theorem collapseAux_false_noLead {s : Str} (h : noLeadWS s = true) :
    noLeadWS (collapseAux false s) = true := by
  cases s with
  | nil => rfl
  | cons c t =>
    have hc : isWS c = false := by simpa [noLeadWS] using h
    simp [collapseAux, hc, noLeadWS]

theorem collapseAux_fix (s : Str) (b : Bool) (hws : wsAllSpace s = true)
    (hadj : noAdjWS s = true) (hb : b = true → noLeadWS s = true) :
    collapseAux b s = s := by
  induction s generalizing b with
  | nil => rfl
  | cons c rest ih =>
    have hws2 := hws
    simp only [wsAllSpace, List.all_cons, Bool.and_eq_true] at hws2
    have hadj2 := (noAdjWS_cons c rest).mp hadj
    cases hc : isWS c with
    | true =>
      have hc32 : c = 32 := by
        have h1 := hws2.1
        simp [hc] at h1
        exact h1
      have hbf : b = false := by
        cases b with
        | false => rfl
        | true =>
          have := hb rfl
          simp [noLeadWS, hc] at this
      subst hbf
      have hleadrest : noLeadWS rest = true := by
        cases rest with
        | nil => rfl
        | cons e t =>
          have he := hadj2.1 e rfl
          simp only [hc, Bool.not_true, Bool.false_or] at he
          simp [noLeadWS, he]
      have hrec : collapseAux true rest = rest :=
        ih true hws2.2 hadj2.2 (fun _ => hleadrest)
      simp only [collapseAux, hc, if_true, Bool.false_eq_true, if_false]
      rw [hrec, hc32]
    | false =>
      have hrec : collapseAux false rest = rest :=
        ih false hws2.2 hadj2.2 (by intro h; exact absurd h (by simp))
      simp only [collapseAux, hc, Bool.false_eq_true, if_false]
      rw [hrec]

theorem mem_stripL {c : Nat} {s : Str} (h : c ∈ stripL s) : c ∈ s := by
  obtain ⟨t, ht⟩ := exists_dropWhile_eq isWS s
  rw [← ht]
  exact List.mem_append_right t h

theorem mem_stripR {c : Nat} {s : Str} (h : c ∈ stripR s) : c ∈ s := by
  obtain ⟨t, ht⟩ := stripR_append_eq s
  rw [← ht]
  exact List.mem_append_left t h

theorem mem_strip {c : Nat} {s : Str} (h : c ∈ strip s) : c ∈ s :=
  mem_stripL (mem_stripR h)

theorem normalize_text_lowerFixed (s : Str) : lowerFixedB (normalize_text s) = true := by
  rw [lowerFixedB, List.all_eq_true]
  intro c hc
  rcases collapseAux_mem false _ hc with h1 | h1
  · have h2 : c ∈ lowerStr s := mem_strip h1
    simp only [lowerStr, List.mem_map] at h2
    obtain ⟨d, _, hd⟩ := h2
    simp [← hd, lowerCp_idem]
  · subst h1
    decide

theorem normalize_text_normalized (s : Str) : NormalizedB (normalize_text s) = true := by
  have h1 : wsAllSpace (normalize_text s) = true := collapseAux_wsAllSpace false _
  have h2 : noAdjWS (normalize_text s) = true := collapseAux_noAdj false _
  have h3 : noLeadWS (normalize_text s) = true :=
    collapseAux_false_noLead (noLeadWS_strip _)
  have h4 : noLeadWS (normalize_text s).reverse = true :=
    collapseAux_noTrail false _ (noLeadWS_reverse_strip _)
  have h5 : lowerFixedB (normalize_text s) = true := normalize_text_lowerFixed s
  simp [NormalizedB, h1, h2, h3, h4, h5]

theorem normalize_text_fix {s : Str} (h : NormalizedB s = true) : normalize_text s = s := by
  simp only [NormalizedB, Bool.and_eq_true] at h
  obtain ⟨⟨⟨⟨hws, hadj⟩, hlead⟩, htrail⟩, hfix⟩ := h
  have hsl : stripL s = s := by
    cases s with
    | nil => rfl
    | cons c t =>
      have hc : isWS c = false := by simpa [noLeadWS] using hlead
      simp [stripL, List.dropWhile_cons, hc]
  have hsr : stripR s = s := by
    have hdw : s.reverse.dropWhile isWS = s.reverse := by
      cases hrv : s.reverse with
      | nil => rfl
      | cons c t =>
        have hc : isWS c = false := by
          rw [hrv] at htrail
          simpa [noLeadWS] using htrail
        simp [List.dropWhile_cons, hc]
    unfold stripR
    rw [hdw, List.reverse_reverse]
  show collapseAux false (stripR (stripL (lowerStr s))) = s
  rw [lowerStr_of_fixed hfix, hsl, hsr]
  exact collapseAux_fix s false hws hadj (by intro h; exact absurd h (by simp))

/-- C8: `normalize_text` is idempotent: normalizing an already-normalized
string (including the empty and whitespace-only strings) changes nothing. -/
theorem C8_normalize_text_idem (x : Str) :
    normalize_text (normalize_text x) = normalize_text x :=
  normalize_text_fix (normalize_text_normalized x)

/-- C3 counterexample: `normalize_text(None)` is not the empty string — the
`str(text)` step stringifies `None` to `"None"`, which normalizes to
`"none"`, refuting the claim that missing input maps to the empty string. -/
theorem C3_counterexample : ¬(normalize_textV PyVal.none = []) := by decide

/-- C3 (amended): `normalize_text` is total; on input `None` it returns the
string `"none"` (the lowercased stringification of `None`), not the empty
string; on every input it stringifies, lowercases, trims, and collapses
each whitespace run to a single space (output in canonical form). -/
theorem C3_normalize_total_shape :
    normalize_textV PyVal.none = codes "none" ∧
      ∀ v : PyVal, NormalizedB (normalize_textV v) = true := by
  refine ⟨by decide, ?_⟩
  intro v
  exact normalize_text_normalized (pyStr v)

/-! ## Lemmas: the deduplicator -/

theorem dedupRows_total (use_only_doi : Bool) (rows : List Rec) (st : DedupState) :
    (dedupRows use_only_doi st rows).total_count = st.total_count + rows.length := by
  induction rows generalizing st with
  | nil => simp [dedupRows]
  | cons r rest ih =>
    simp only [dedupRows, List.foldl_cons, List.length_cons]
    rw [show rest.foldl (dedupIngest use_only_doi) (dedupIngest use_only_doi st r)
        = dedupRows use_only_doi (dedupIngest use_only_doi st r) rest from rfl]
    rw [ih]
    have : (dedupIngest use_only_doi st r).total_count = st.total_count + 1 := by
      by_cases h : get_unique_key use_only_doi r ∈ st.unique_entries.map Prod.fst
      · simp [dedupIngest, h]
      · simp [dedupIngest, h]
    omega

theorem dedupRows_dupLen (use_only_doi : Bool) (rows : List Rec) (st : DedupState) :
    (dedupRows use_only_doi st rows).duplicate_count
        + (dedupRows use_only_doi st rows).unique_entries.length
      = st.duplicate_count + st.unique_entries.length + rows.length := by
  induction rows generalizing st with
  | nil => simp [dedupRows]
  | cons r rest ih =>
    simp only [dedupRows, List.foldl_cons, List.length_cons]
    rw [show rest.foldl (dedupIngest use_only_doi) (dedupIngest use_only_doi st r)
        = dedupRows use_only_doi (dedupIngest use_only_doi st r) rest from rfl]
    rw [ih]
    have : (dedupIngest use_only_doi st r).duplicate_count
        + (dedupIngest use_only_doi st r).unique_entries.length
        = st.duplicate_count + st.unique_entries.length + 1 := by
      by_cases h : get_unique_key use_only_doi r ∈ st.unique_entries.map Prod.fst
      · simp [dedupIngest, h]
        omega
      · simp [dedupIngest, h, List.length_append]
        omega
    omega

theorem dedupFold_counts (use_only_doi : Bool) (files : List (Str × List Rec)) (acc : DedupRun) :
    (files.foldl
        (fun a f =>
          { st := dedupRows use_only_doi a.st f.2,
            file_entry_counts := a.file_entry_counts ++ [(f.1, f.2.length)] })
        acc).st.total_count
      = acc.st.total_count + (files.map fun f => f.2.length).sum
    ∧ (files.foldl
        (fun a f =>
          { st := dedupRows use_only_doi a.st f.2,
            file_entry_counts := a.file_entry_counts ++ [(f.1, f.2.length)] })
        acc).st.duplicate_count
      + (files.foldl
        (fun a f =>
          { st := dedupRows use_only_doi a.st f.2,
            file_entry_counts := a.file_entry_counts ++ [(f.1, f.2.length)] })
        acc).st.unique_entries.length
      = acc.st.duplicate_count + acc.st.unique_entries.length
        + (files.map fun f => f.2.length).sum := by
  induction files generalizing acc with
  | nil => simp
  | cons f rest ih =>
    simp only [List.foldl_cons, List.map_cons, List.sum_cons]
    have h := ih { st := dedupRows use_only_doi acc.st f.2,
                   file_entry_counts := acc.file_entry_counts ++ [(f.1, f.2.length)] }
    simp only at h
    rw [h.1, h.2]
    have h1 := dedupRows_total use_only_doi f.2 acc.st
    have h2 := dedupRows_dupLen use_only_doi f.2 acc.st
    constructor <;> omega

/-- C2: after the dedup pipeline has ingested any sequence of input files,
`duplicate_count + len(unique_entries) = total_count`, and `total_count` is
exactly the number of ingested records. -/
theorem C2_dedup_invariant (use_only_doi : Bool) (files : List (Str × List Rec)) :
    (dedupFiles use_only_doi files).st.duplicate_count
        + (dedupFiles use_only_doi files).st.unique_entries.length
      = (dedupFiles use_only_doi files).st.total_count
    ∧ (dedupFiles use_only_doi files).st.total_count
      = (files.map fun f => f.2.length).sum := by
  have h := dedupFold_counts use_only_doi files ⟨initDedup, []⟩
  have e : dedupFiles use_only_doi files
      = files.foldl
          (fun a f =>
            { st := dedupRows use_only_doi a.st f.2,
              file_entry_counts := a.file_entry_counts ++ [(f.1, f.2.length)] })
          ⟨initDedup, []⟩ := rfl
  rw [e]
  simp only [initDedup, List.length_nil] at h ⊢
  omega

theorem alookup_eq_none {l : List (UKey × Rec)} {k : UKey}
    (h : k ∉ l.map Prod.fst) : alookup l k = Option.none := by
  induction l with
  | nil => rfl
  | cons p rest ih =>
    simp only [List.map_cons, List.mem_cons] at h
    push_neg at h
    simp only [alookup]
    rw [if_neg (Ne.symm h.1)]
    exact ih h.2

theorem alookup_append_left {l1 l2 : List (UKey × Rec)} {k : UKey}
    (h : k ∈ l1.map Prod.fst) : alookup (l1 ++ l2) k = alookup l1 k := by
  induction l1 with
  | nil => simp at h
  | cons p rest ih =>
    by_cases hp : p.1 = k
    · simp [alookup, hp]
    · simp only [List.map_cons, List.mem_cons] at h
      rcases h with h | h
      · exact absurd h.symm hp
      · simp only [List.cons_append, alookup]
        rw [if_neg hp, if_neg hp]
        exact ih h

theorem alookup_append_right {l1 l2 : List (UKey × Rec)} {k : UKey}
    (h : k ∉ l1.map Prod.fst) : alookup (l1 ++ l2) k = alookup l2 k := by
  induction l1 with
  | nil => rfl
  | cons p rest ih =>
    simp only [List.map_cons, List.mem_cons] at h
    push_neg at h
    simp only [List.cons_append, alookup]
    rw [if_neg (Ne.symm h.1)]
    exact ih h.2

theorem dedupIngest_unique (use_only_doi : Bool) (st : DedupState) (r : Rec) :
    (dedupIngest use_only_doi st r).unique_entries
      = if get_unique_key use_only_doi r ∈ st.unique_entries.map Prod.fst
        then st.unique_entries
        else st.unique_entries ++ [(get_unique_key use_only_doi r, r)] := by
  by_cases h : get_unique_key use_only_doi r ∈ st.unique_entries.map Prod.fst
  · simp [dedupIngest, h]
  · simp [dedupIngest, h]

theorem mem_keys_dedupRows (use_only_doi : Bool) (rows : List Rec) (st : DedupState) (k : UKey) :
    k ∈ (dedupRows use_only_doi st rows).unique_entries.map Prod.fst
      ↔ k ∈ st.unique_entries.map Prod.fst ∨ ∃ r ∈ rows, get_unique_key use_only_doi r = k := by
  induction rows generalizing st with
  | nil => simp [dedupRows]
  | cons r rest ih =>
    simp only [dedupRows, List.foldl_cons]
    rw [show rest.foldl (dedupIngest use_only_doi) (dedupIngest use_only_doi st r)
        = dedupRows use_only_doi (dedupIngest use_only_doi st r) rest from rfl]
    rw [ih]
    rw [dedupIngest_unique]
    by_cases h : get_unique_key use_only_doi r ∈ st.unique_entries.map Prod.fst
    · rw [if_pos h]
      constructor
      · rintro (h1 | ⟨r2, hr2, he⟩)
        · exact Or.inl h1
        · exact Or.inr ⟨r2, List.mem_cons_of_mem _ hr2, he⟩
      · rintro (h1 | ⟨r2, hr2, he⟩)
        · exact Or.inl h1
        · rcases List.mem_cons.mp hr2 with h2 | h2
          · subst h2; exact Or.inl (he ▸ h)
          · exact Or.inr ⟨r2, h2, he⟩
    · rw [if_neg h]
      simp only [List.map_append, List.mem_append, List.map_cons, List.map_nil,
        List.mem_singleton, List.not_mem_nil, or_false]
      constructor
      · rintro ((h1 | h1) | h1)
        · exact Or.inl h1
        · exact Or.inr ⟨r, List.mem_cons_self _ _, h1.symm⟩
        · obtain ⟨r2, hr2, he⟩ := h1
          exact Or.inr ⟨r2, List.mem_cons_of_mem _ hr2, he⟩
      · rintro (h1 | ⟨r2, hr2, he⟩)
        · exact Or.inl (Or.inl h1)
        · rcases List.mem_cons.mp hr2 with h2 | h2
          · subst h2; exact Or.inl (Or.inr he.symm)
          · exact Or.inr ⟨r2, h2, he⟩

theorem alookup_dedupRows_stable (use_only_doi : Bool) (rows : List Rec) {st : DedupState}
    {k : UKey} (h : k ∈ st.unique_entries.map Prod.fst) :
    alookup (dedupRows use_only_doi st rows).unique_entries k
      = alookup st.unique_entries k := by
  induction rows generalizing st with
  | nil => rfl
  | cons r rest ih =>
    simp only [dedupRows, List.foldl_cons]
    rw [show rest.foldl (dedupIngest use_only_doi) (dedupIngest use_only_doi st r)
        = dedupRows use_only_doi (dedupIngest use_only_doi st r) rest from rfl]
    have hk : k ∈ (dedupIngest use_only_doi st r).unique_entries.map Prod.fst := by
      rw [dedupIngest_unique]
      by_cases hc : get_unique_key use_only_doi r ∈ st.unique_entries.map Prod.fst
      · rwa [if_pos hc]
      · rw [if_neg hc]
        simp only [List.map_append, List.mem_append]
        exact Or.inl h
    rw [ih hk, dedupIngest_unique]
    by_cases hc : get_unique_key use_only_doi r ∈ st.unique_entries.map Prod.fst
    · rw [if_pos hc]
    · rw [if_neg hc]
      exact alookup_append_left h

theorem alookup_dedupRows (use_only_doi : Bool) (rows : List Rec) {st : DedupState} {k : UKey}
    (h : k ∉ st.unique_entries.map Prod.fst) :
    alookup (dedupRows use_only_doi st rows).unique_entries k
      = rows.find? fun r => decide (get_unique_key use_only_doi r = k) := by
  induction rows generalizing st with
  | nil => simpa [dedupRows] using alookup_eq_none h
  | cons r rest ih =>
    simp only [dedupRows, List.foldl_cons]
    rw [show rest.foldl (dedupIngest use_only_doi) (dedupIngest use_only_doi st r)
        = dedupRows use_only_doi (dedupIngest use_only_doi st r) rest from rfl]
    by_cases hrk : get_unique_key use_only_doi r = k
    · have hc : get_unique_key use_only_doi r ∉ st.unique_entries.map Prod.fst := hrk ▸ h
      have huniq : (dedupIngest use_only_doi st r).unique_entries
          = st.unique_entries ++ [(get_unique_key use_only_doi r, r)] := by
        rw [dedupIngest_unique, if_neg hc]
      have hk2 : k ∈ (dedupIngest use_only_doi st r).unique_entries.map Prod.fst := by
        rw [huniq]
        simp [hrk]
      rw [alookup_dedupRows_stable use_only_doi rest hk2, huniq, alookup_append_right h]
      simp [alookup, hrk, List.find?_cons]
    · have hk2 : k ∉ (dedupIngest use_only_doi st r).unique_entries.map Prod.fst := by
        rw [dedupIngest_unique]
        by_cases hc : get_unique_key use_only_doi r ∈ st.unique_entries.map Prod.fst
        · rwa [if_pos hc]
        · rw [if_neg hc]
          simp only [List.map_append, List.mem_append]
          rintro (h1 | h1)
          · exact h h1
          · simp only [List.map_cons, List.map_nil, List.mem_singleton] at h1
            exact hrk h1.symm
      rw [ih hk2]
      simp [List.find?_cons, hrk]

/-- C7: for two records with equal identity keys, ingesting `[A, B]` retains
`A` with one duplicate counted, ingesting `[B, A]` retains `B` with one
duplicate counted; in general the record surviving under a key is the first
ingested record with that key, and the set of surviving keys does not depend
on the ingestion order. -/
theorem C7_first_wins (use_only_doi : Bool) (A B : Rec)
    (hAB : get_unique_key use_only_doi A = get_unique_key use_only_doi B) :
    ((dedupRows use_only_doi initDedup [A, B]).unique_entries
        = [(get_unique_key use_only_doi A, A)]
      ∧ (dedupRows use_only_doi initDedup [A, B]).duplicate_count = 1)
    ∧ ((dedupRows use_only_doi initDedup [B, A]).unique_entries
        = [(get_unique_key use_only_doi B, B)]
      ∧ (dedupRows use_only_doi initDedup [B, A]).duplicate_count = 1)
    ∧ (∀ (rows : List Rec) (k : UKey),
        alookup (dedupRows use_only_doi initDedup rows).unique_entries k
          = rows.find? fun r => decide (get_unique_key use_only_doi r = k))
    ∧ (∀ (rows rows2 : List Rec), rows.Perm rows2 → ∀ k : UKey,
        (k ∈ (dedupRows use_only_doi initDedup rows).unique_entries.map Prod.fst
          ↔ k ∈ (dedupRows use_only_doi initDedup rows2).unique_entries.map Prod.fst)) := by
  refine ⟨⟨?_, ?_⟩, ⟨?_, ?_⟩, ?_, ?_⟩
  · simp [dedupRows, dedupIngest, initDedup, ← hAB]
  · simp [dedupRows, dedupIngest, initDedup, ← hAB]
  · simp [dedupRows, dedupIngest, initDedup, hAB]
  · simp [dedupRows, dedupIngest, initDedup, hAB]
  · intro rows k
    exact alookup_dedupRows use_only_doi rows (by simp [initDedup])
  · intro rows rows2 hp k
    rw [mem_keys_dedupRows, mem_keys_dedupRows]
    simp only [initDedup, List.map_nil, List.not_mem_nil, false_or]
    constructor
    · rintro ⟨r, hr, he⟩
      exact ⟨r, hp.mem_iff.mp hr, he⟩
    · rintro ⟨r, hr, he⟩
      exact ⟨r, hp.mem_iff.mpr hr, he⟩

/-- Witness for C7 at two concrete records whose keys agree after
normalization (titles `"A "` and `"a"`). -/
theorem C7_first_wins_witness :
    ((dedupRows false initDedup
        [[(codes "title", PyVal.str (codes "A "))], [(codes "title", PyVal.str (codes "a"))]]).unique_entries
      = [(get_unique_key false [(codes "title", PyVal.str (codes "A "))],
          [(codes "title", PyVal.str (codes "A "))])])
    ∧ (dedupRows false initDedup
        [[(codes "title", PyVal.str (codes "a"))], [(codes "title", PyVal.str (codes "A "))]]).duplicate_count = 1 :=
  ⟨((C7_first_wins false [(codes "title", PyVal.str (codes "A "))]
      [(codes "title", PyVal.str (codes "a"))] (by decide)).1).1,
   ((C7_first_wins false [(codes "title", PyVal.str (codes "A "))]
      [(codes "title", PyVal.str (codes "a"))] (by decide)).2.1).2⟩

/-! ## Lemmas: the CSV filter pipeline -/

theorem filter_and_filter {α : Type} (p q : α → Bool) (l : List α) :
    (l.filter p).filter q = l.filter fun a => p a && q a := by
  rw [List.filter_filter]
  exact List.filter_congr fun a _ => Bool.and_comm (q a) (p a)

theorem csvStep_eq (oracle : Oracle) (dc tc : Bool)
    (acc : List (Str × Nat) × List CsvRow) (r : CsvRow) :
    csvStep oracle dc tc acc r
      = (bump acc.1 (classifyCsvRow oracle dc tc r),
         if acceptedB (classifyCsvRow oracle dc tc r) then acc.2 ++ [r] else acc.2) := rfl

theorem csvLoop_retained (oracle : Oracle) (dc tc : Bool) (rows : List CsvRow)
    (t : List (Str × Nat)) (acc : List CsvRow) :
    (rows.foldl (csvStep oracle dc tc) (t, acc)).2
      = acc ++ rows.filter fun r => acceptedB (classifyCsvRow oracle dc tc r) := by
  induction rows generalizing t acc with
  | nil => simp
  | cons r rest ih =>
    simp only [List.foldl_cons, List.filter_cons, csvStep_eq]
    by_cases h : acceptedB (classifyCsvRow oracle dc tc r) = true
    · rw [if_pos h, if_pos h, ih]
      simp
    · rw [if_neg h, if_neg h, ih]

theorem csvLoop_tally (oracle : Oracle) (dc tc : Bool) (rows : List CsvRow)
    (t : List (Str × Nat)) (acc : List CsvRow) :
    (rows.foldl (csvStep oracle dc tc) (t, acc)).1
      = rows.foldl (fun t2 r => bump t2 (classifyCsvRow oracle dc tc r)) t := by
  induction rows generalizing t acc with
  | nil => rfl
  | cons r rest ih =>
    simp only [List.foldl_cons, csvStep_eq]
    by_cases h : acceptedB (classifyCsvRow oracle dc tc r) = true
    · rw [if_pos h, ih]
    · rw [if_neg h, ih]

theorem tallySum_bump (t : List (Str × Nat)) (k : Str) :
    tallySum (bump t k) = tallySum t + 1 := by
  induction t with
  | nil => simp [bump, tallySum]
  | cons p rest ih =>
    by_cases h : p.1 = k
    · simp only [bump, if_pos h, tallySum, List.map_cons, List.sum_cons]
      omega
    · simp only [bump, if_neg h, tallySum, List.map_cons, List.sum_cons]
      simp only [tallySum] at ih
      omega

theorem tally_foldl_sum (oracle : Oracle) (dc tc : Bool) (rows : List CsvRow)
    (t : List (Str × Nat)) :
    tallySum (rows.foldl (fun t2 r => bump t2 (classifyCsvRow oracle dc tc r)) t)
      = tallySum t + rows.length := by
  induction rows generalizing t with
  | nil => simp
  | cons r rest ih =>
    simp only [List.foldl_cons, List.length_cons]
    rw [ih, tallySum_bump]
    omega

theorem processCsvFile_filtered (oracle : Oracle) (start_year current_year : Int)
    (st : CsvState) (f : CsvFile) (hy : f.has_year_col = true) :
    (processCsvFile oracle start_year current_year st f).filtered_entries
      = st.filtered_entries
        ++ f.rows.filter fun r =>
            yearInRange start_year current_year r.year
              && acceptedB (classifyCsvRow oracle f.doi_col f.type_col r) := by
  simp only [processCsvFile, hy, Bool.not_true, Bool.false_eq_true, if_false,
    csvLoop_retained, List.nil_append]
  rw [← filter_and_filter]
  split
  · rfl
  · rename_i h
    have h0 : ((f.rows.filter fun r => yearInRange start_year current_year r.year).filter
        fun r => acceptedB (classifyCsvRow oracle f.doi_col f.type_col r)) = [] := by
      rcases List.eq_nil_or_concat ((f.rows.filter fun r => yearInRange start_year current_year r.year).filter
        fun r => acceptedB (classifyCsvRow oracle f.doi_col f.type_col r)) with he | ⟨l2, a, he⟩
      · exact he
      · rw [he] at h
        simp at h
    rw [h0]
    simp

theorem processCsvFile_tally (oracle : Oracle) (start_year current_year : Int)
    (st : CsvState) (f : CsvFile) (hy : f.has_year_col = true) :
    (processCsvFile oracle start_year current_year st f).publication_types
      = (f.rows.filter fun r => yearInRange start_year current_year r.year).foldl
          (fun t2 r => bump t2 (classifyCsvRow oracle f.doi_col f.type_col r))
          st.publication_types := by
  simp only [processCsvFile, hy, Bool.not_true, Bool.false_eq_true, if_false, csvLoop_tally]
  split <;> rfl

/-! ## Lemmas: the BibTeX filter pipeline -/

theorem acceptedB_NoDOI : acceptedB (codes "No DOI") = false := by decide

theorem bibStep_eq (oracle : Oracle) (start_year current_year : Int)
    (t : List (Str × Nat)) (acc : List BibEntry) (e : BibEntry) :
    bibStep oracle start_year current_year (t, acc) e
      = ((match bibTag oracle start_year current_year e with
          | Option.none => t
          | some lbl => bump t lbl),
         (match bibKeep oracle start_year current_year e with
          | Option.none => acc
          | some e2 => acc ++ [e2])) := by
  unfold bibStep bibTag bibKeep bibYearOkB classifyBibDoi
  cases hy : bibYear e with
  | none => rfl
  | some y =>
    by_cases hr : (decide (start_year ≤ y) && decide (y ≤ current_year)) = true
    · by_cases hd : (entryGet e (codes "doi") []).isEmpty = true
      · simp [hy, hr, hd, acceptedB_NoDOI]
      · by_cases ha : acceptedB (get_publication_type oracle (some (entryGet e (codes "doi") []))) = true
        · simp [hy, hr, hd, ha]
        · simp [hy, hr, hd, ha]
    · simp [hy, hr]

theorem bibLoop_retained (oracle : Oracle) (start_year current_year : Int)
    (entries : List BibEntry) (t : List (Str × Nat)) (acc : List BibEntry) :
    (entries.foldl (bibStep oracle start_year current_year) (t, acc)).2
      = acc ++ entries.filterMap (bibKeep oracle start_year current_year) := by
  induction entries generalizing t acc with
  | nil => simp
  | cons e rest ih =>
    simp only [List.foldl_cons, List.filterMap_cons, bibStep_eq]
    cases hk : bibKeep oracle start_year current_year e with
    | none => rw [ih]
    | some e2 =>
      rw [ih]
      simp

theorem bibLoop_tally (oracle : Oracle) (start_year current_year : Int)
    (entries : List BibEntry) (t : List (Str × Nat)) (acc : List BibEntry) :
    (entries.foldl (bibStep oracle start_year current_year) (t, acc)).1
      = entries.foldl
          (fun t2 e =>
            match bibTag oracle start_year current_year e with
            | Option.none => t2
            | some lbl => bump t2 lbl) t := by
  induction entries generalizing t acc with
  | nil => rfl
  | cons e rest ih =>
    simp only [List.foldl_cons, bibStep_eq]
    cases hk : bibKeep oracle start_year current_year e <;> rw [ih]

theorem processBibFile_filtered (oracle : Oracle) (start_year current_year : Int)
    (st : BibState) (f : BibFile) :
    (processBibFile oracle start_year current_year st f).filtered_entries
      = st.filtered_entries ++ f.entries.filterMap (bibKeep oracle start_year current_year) := by
  simp only [processBibFile, bibLoop_retained, List.nil_append]
  split
  · rfl
  · rename_i h
    have h0 : f.entries.filterMap (bibKeep oracle start_year current_year) = [] := by
      rcases List.eq_nil_or_concat (f.entries.filterMap (bibKeep oracle start_year current_year))
        with he | ⟨l2, a, he⟩
      · exact he
      · rw [he] at h
        simp at h
    rw [h0]
    simp

theorem processBibFile_tally (oracle : Oracle) (start_year current_year : Int)
    (st : BibState) (f : BibFile) :
    (processBibFile oracle start_year current_year st f).publication_types
      = f.entries.foldl
          (fun t2 e =>
            match bibTag oracle start_year current_year e with
            | Option.none => t2
            | some lbl => bump t2 lbl) st.publication_types := by
  simp only [processBibFile, bibLoop_tally]
  split <;> rfl

theorem setField_cons_ne {p : Str × Str} {rest : BibEntry} {k : Str} (v : Str)
    (hp : ¬(p.1 = k)) : setField (p :: rest) k v = p :: setField rest k v := by
  by_cases ha : rest.any (fun kv => decide (kv.1 = k)) = true
  · simp [setField, List.any_cons, ha, hp]
  · simp [setField, List.any_cons, ha, hp]

theorem entryGet_setField (e : BibEntry) (k v d : Str) :
    entryGet (setField e k v) k d = v := by
  induction e with
  | nil => simp [setField, entryGet, List.find?]
  | cons p rest ih =>
    by_cases hp : p.1 = k
    · have ha : (p :: rest).any (fun kv => decide (kv.1 = k)) = true := by
        simp [List.any_cons, hp]
      simp [setField, ha, entryGet, List.find?, hp]
    · rw [setField_cons_ne v hp]
      have hd : decide (p.1 = k) = false := by simp [hp]
      simp only [entryGet, List.find?_cons, hd]
      exact ih

/-! ## Claim theorems: the filter pipeline -/

/-- C1: in both filter pipelines a record is retained exactly when its
classification is "Original Research" or "Conference Paper" and its parsed
year lies in the inclusive range; the year bounds are inclusive
(`start_year` and `current_year` retained-side, `start_year - 1` and
`current_year + 1` excluded-side). -/
theorem C1_retained_iff (oracle : Oracle) (start_year current_year : Int)
    (st : CsvState) (f : CsvFile) (bst : BibState) (bf : BibFile)
    (hy : f.has_year_col = true) (hrange : start_year ≤ current_year) :
    ((processCsvFile oracle start_year current_year st f).filtered_entries
      = st.filtered_entries
        ++ f.rows.filter fun r =>
            yearInRange start_year current_year r.year
              && acceptedB (classifyCsvRow oracle f.doi_col f.type_col r))
    ∧ ((processBibFile oracle start_year current_year bst bf).filtered_entries
      = bst.filtered_entries
        ++ bf.entries.filterMap fun e =>
            if bibYearOkB start_year current_year e
                && acceptedB (classifyBibDoi oracle e) then
              some (setField e (codes "publication_type") (classifyBibDoi oracle e))
            else Option.none)
    ∧ yearInRange start_year current_year (some start_year) = true
    ∧ yearInRange start_year current_year (some current_year) = true
    ∧ yearInRange start_year current_year (some (start_year - 1)) = false
    ∧ yearInRange start_year current_year (some (current_year + 1)) = false := by
  refine ⟨processCsvFile_filtered oracle start_year current_year st f hy,
    processBibFile_filtered oracle start_year current_year bst bf, ?_, ?_, ?_, ?_⟩ <;>
    simp [yearInRange] <;> omega

/-- Witness for C1 at concrete inputs: a CSV row at the lower year bound is
retained, and the year `start_year - 1` is rejected. -/
theorem C1_retained_iff_witness :
    (processCsvFile (fun _ => LookupResp.typeStr (codes "journal-article")) 2020 2025 initCsvState
        ⟨codes "a.csv", true, true, false, [⟨some 2020, some (codes "10.1/x"), Option.none⟩]⟩).filtered_entries
      = [⟨some 2020, some (codes "10.1/x"), Option.none⟩]
    ∧ yearInRange 2020 2025 (some ((2020 : Int) - 1)) = false := by
  have h := C1_retained_iff (fun _ => LookupResp.typeStr (codes "journal-article")) 2020 2025
    initCsvState
    ⟨codes "a.csv", true, true, false, [⟨some 2020, some (codes "10.1/x"), Option.none⟩]⟩
    initBibState ⟨codes "a.bib", []⟩ rfl (by decide)
  refine ⟨?_, h.2.2.2.2.1⟩
  rw [h.1]
  decide

/-- C4 counterexample: in the CSV (row-oriented) pipeline, a year-in-range
record with no DOI cell and no type cell is classified "Unknown", not
"NoDOI", and it does contribute to the `publication_types` tally even though
no DOI lookup was attempted. -/
theorem C4_counterexample :
    classifyCsvRow (fun _ => LookupResp.fail) true true ⟨some 2022, Option.none, Option.none⟩
        = codes "Unknown"
    ∧ ¬(classifyCsvRow (fun _ => LookupResp.fail) true true ⟨some 2022, Option.none, Option.none⟩
        = codes "NoDOI")
    ∧ ¬(classifyCsvRow (fun _ => LookupResp.fail) true true ⟨some 2022, Option.none, Option.none⟩
        = codes "No DOI")
    ∧ (processCsvFile (fun _ => LookupResp.fail) 2020 2025 initCsvState
        ⟨codes "a.csv", true, true, true, [⟨some 2022, Option.none, Option.none⟩]⟩).publication_types
      = [(codes "Unknown", 1)] := by decide

/-- C4 (amended): the two pipelines differ.  In the CSV pipeline a record
with no usable DOI and no usable type cell is classified "Unknown" (not
"NoDOI"), and every year-in-range record contributes to the tally whether or
not a lookup was attempted; in the BibTeX pipeline a year-accepted record
without a DOI is tallied as "No DOI" and never retained. -/
theorem C4_tally_rule (oracle : Oracle) (start_year current_year : Int)
    (st : CsvState) (f : CsvFile) (hy : f.has_year_col = true) :
    (∀ r : CsvRow, (f.doi_col = false ∨ r.doi = Option.none) →
        (f.type_col = false ∨ r.ty = Option.none) →
        classifyCsvRow oracle f.doi_col f.type_col r = codes "Unknown")
    ∧ tallySum (processCsvFile oracle start_year current_year st f).publication_types
        = tallySum st.publication_types
          + (f.rows.filter fun r => yearInRange start_year current_year r.year).length
    ∧ (∀ e : BibEntry, bibYearOkB start_year current_year e = true →
        entryGet e (codes "doi") [] = [] →
        bibTag oracle start_year current_year e = some (codes "No DOI")
          ∧ bibKeep oracle start_year current_year e = Option.none) := by
  refine ⟨?_, ?_, ?_⟩
  · intro r h1 h2
    have hpt : doiPathType oracle f.doi_col r = codes "Unknown" := by
      rcases h1 with h | h
      · simp [doiPathType, h]
      · simp [doiPathType, h]
    simp only [classifyCsvRow, hpt]
    rcases h2 with h | h
    · simp [h]
    · simp [h]
  · rw [processCsvFile_tally oracle start_year current_year st f hy, tally_foldl_sum]
  · intro e hok hdoi
    constructor
    · simp [bibTag, hok, hdoi]
    · simp [bibKeep, classifyBibDoi, hdoi, acceptedB_NoDOI]

/-- Witness for C4 at concrete inputs: a two-row file (one in range, one out)
bumps the tally total by exactly the number of year-in-range rows, and a
no-DOI-column classification is "Unknown" even with a conference type cell. -/
theorem C4_tally_rule_witness :
    tallySum (processCsvFile (fun _ => LookupResp.fail) 2020 2025 initCsvState
        ⟨codes "a.csv", true, true, true,
          [⟨some 2022, Option.none, Option.none⟩, ⟨some 1999, Option.none, Option.none⟩]⟩).publication_types
      = tallySum initCsvState.publication_types
        + (([⟨some 2022, Option.none, Option.none⟩, ⟨some 1999, Option.none, Option.none⟩] :
            List CsvRow).filter fun r => yearInRange 2020 2025 r.year).length
    ∧ classifyCsvRow (fun _ => LookupResp.fail) true false
        ⟨some 2022, Option.none, some (codes "conference")⟩ = codes "Unknown" :=
  ⟨(C4_tally_rule (fun _ => LookupResp.fail) 2020 2025 initCsvState
      ⟨codes "a.csv", true, true, true,
        [⟨some 2022, Option.none, Option.none⟩, ⟨some 1999, Option.none, Option.none⟩]⟩ rfl).2.1,
   (C4_tally_rule (fun _ => LookupResp.fail) 2020 2025 initCsvState
      ⟨codes "b.csv", true, true, false, []⟩ rfl).1
     ⟨some 2022, Option.none, some (codes "conference")⟩ (Or.inr rfl) (Or.inl rfl)⟩

/-- C5 counterexample: in the BibTeX pipeline there is no fallback path — an
entry with in-range year (2022 in [2020, 2025]), no DOI, and type field
"Conference Proceedings 2022" is excluded and tallied "No DOI", not
classified "Conference Paper" and retained as the claim states. -/
theorem C5_counterexample :
    (processBibFile (fun _ => LookupResp.typeStr (codes "proceedings-article")) 2020 2025
        initBibState
        ⟨codes "a.bib",
          [[(codes "year", codes "2022"), (codes "type", codes "Conference Proceedings 2022")]]⟩).filtered_entries
      = []
    ∧ (processBibFile (fun _ => LookupResp.typeStr (codes "proceedings-article")) 2020 2025
        initBibState
        ⟨codes "a.bib",
          [[(codes "year", codes "2022"), (codes "type", codes "Conference Proceedings 2022")]]⟩).publication_types
      = [(codes "No DOI", 1)] := by decide

/-- C5 (amended): in the row-oriented (CSV) pipeline only, a record with an
empty or absent DOI whose type cell contains "conference" or "proceeding"
(case-insensitively) and does not contain "journal" or "article" is
classified "Conference Paper" via the fallback and retained when its year is
in range; the fallback is consulted exactly when the DOI path left
"Unknown" and a type cell is present.  The BibTeX pipeline has no fallback:
a record without a DOI is never retained there. -/
theorem C5_fallback (oracle : Oracle) (start_year current_year : Int) (dc : Bool)
    (r : CsvRow) (ts : Str) (st : CsvState) (f : CsvFile)
    (hty : r.ty = some ts)
    (hdoi : dc = false ∨ r.doi = Option.none ∨ r.doi = some [])
    (hconf : containsSub (codes "conference") (lowerStr ts) = true
      ∨ containsSub (codes "proceeding") (lowerStr ts) = true)
    (hnj : containsSub (codes "journal") (lowerStr ts) = false)
    (hna : containsSub (codes "article") (lowerStr ts) = false) :
    classifyCsvRow oracle dc true r = codes "Conference Paper"
    ∧ (f.has_year_col = true → f.doi_col = dc → f.type_col = true → r ∈ f.rows →
        yearInRange start_year current_year r.year = true →
        r ∈ (processCsvFile oracle start_year current_year st f).filtered_entries)
    ∧ (∀ (tc2 : Bool) (r2 : CsvRow) (ts2 ts3 : Str),
        ¬(doiPathType oracle dc r2 = codes "Unknown") →
        classifyCsvRow oracle dc tc2 { r2 with ty := some ts2 }
          = classifyCsvRow oracle dc tc2 { r2 with ty := some ts3 })
    ∧ (∀ e : BibEntry, entryGet e (codes "doi") [] = [] →
        bibKeep oracle start_year current_year e = Option.none) := by
  have hpt : doiPathType oracle dc r = codes "Unknown" := by
    rcases hdoi with h | h | h
    · simp [doiPathType, h]
    · simp [doiPathType, h]
    · cases dc <;> simp [doiPathType, h, get_publication_type]
  have hclass : classifyCsvRow oracle dc true r = codes "Conference Paper" := by
    simp only [classifyCsvRow, hpt, hty]
    simp only [Option.isSome_some, Bool.and_true, Bool.and_self, beq_self_eq_true, if_true]
    rcases hconf with h | h <;>
      simp [fallbackType, hnj, hna, h, Option.getD]
  refine ⟨hclass, ?_, ?_, ?_⟩
  · intro hy hd ht hr hyear
    rw [processCsvFile_filtered oracle start_year current_year st f hy]
    apply List.mem_append_right
    rw [List.mem_filter]
    refine ⟨hr, ?_⟩
    rw [hyear, hd, ht, hclass]
    decide
  · intro tc2 r2 ts2 ts3 hne
    have hb : (doiPathType oracle dc r2 == codes "Unknown") = false := by
      simpa using hne
    have e2 : doiPathType oracle dc { r2 with ty := some ts2 } = doiPathType oracle dc r2 := rfl
    have e3 : doiPathType oracle dc { r2 with ty := some ts3 } = doiPathType oracle dc r2 := rfl
    simp only [classifyCsvRow, e2, e3, hb, Bool.false_and, Bool.false_eq_true, if_false]
  · intro e hdoi2
    simp [bibKeep, classifyBibDoi, hdoi2, acceptedB_NoDOI]

/-- Witness for C5 at the spec's scenario: an empty-DOI row with type cell
"Conference Proceedings 2022" is classified "Conference Paper" and retained. -/
theorem C5_fallback_witness :
    classifyCsvRow (fun _ => LookupResp.fail) true true
        ⟨some 2022, Option.none, some (codes "Conference Proceedings 2022")⟩
      = codes "Conference Paper"
    ∧ (⟨some 2022, Option.none, some (codes "Conference Proceedings 2022")⟩ : CsvRow)
        ∈ (processCsvFile (fun _ => LookupResp.fail) 2020 2025 initCsvState
            ⟨codes "a.csv", true, true, true,
              [⟨some 2022, Option.none, some (codes "Conference Proceedings 2022")⟩]⟩).filtered_entries := by
  have h := C5_fallback (fun _ => LookupResp.fail) 2020 2025 true
    ⟨some 2022, Option.none, some (codes "Conference Proceedings 2022")⟩
    (codes "Conference Proceedings 2022") initCsvState
    ⟨codes "a.csv", true, true, true,
      [⟨some 2022, Option.none, some (codes "Conference Proceedings 2022")⟩]⟩
    rfl (Or.inr (Or.inl rfl)) (Or.inl (by decide)) (by decide) (by decide)
  exact ⟨h.1, h.2.1 rfl rfl rfl (List.mem_cons_self _ _) (by decide)⟩

/-- C6 counterexample: a CSV file that is processed without any error (it
has a year column) but retains zero records gets no FileStats entry, and its
record count is not added to `total_found`, contradicting the claim that the
aggregate accumulates over all processed files. -/
theorem C6_counterexample :
    (processCsvFile (fun _ => LookupResp.fail) 2020 2025 initCsvState
        ⟨codes "a.csv", true, true, true, [⟨some 1999, Option.none, Option.none⟩]⟩).file_stats = []
    ∧ (processCsvFile (fun _ => LookupResp.fail) 2020 2025 initCsvState
        ⟨codes "a.csv", true, true, true, [⟨some 1999, Option.none, Option.none⟩]⟩).total_found = 0
    ∧ ([⟨some 1999, Option.none, Option.none⟩] : List CsvRow).length = 1 := by decide

/-- C6 (amended): a file's FileStats entry is recorded and its counts are
added to the grand totals if and only if at least one of its records is
retained; a file retaining zero records leaves `file_stats`, `total_found`
and `total_filtered` unchanged (its tally contributions persist regardless).
This holds in both pipelines. -/
theorem C6_stats_only_when_retained (oracle : Oracle) (start_year current_year : Int)
    (st : CsvState) (f : CsvFile) (bst : BibState) (bf : BibFile)
    (hy : f.has_year_col = true) :
    ((0 < (f.rows.filter fun r =>
          yearInRange start_year current_year r.year
            && acceptedB (classifyCsvRow oracle f.doi_col f.type_col r)).length →
        (processCsvFile oracle start_year current_year st f).file_stats
          = st.file_stats
            ++ [(f.name,
                ⟨f.rows.length,
                 (f.rows.filter fun r =>
                    yearInRange start_year current_year r.year
                      && acceptedB (classifyCsvRow oracle f.doi_col f.type_col r)).length,
                 f.rows.length
                   - (f.rows.filter fun r =>
                        yearInRange start_year current_year r.year
                          && acceptedB (classifyCsvRow oracle f.doi_col f.type_col r)).length⟩)]
        ∧ (processCsvFile oracle start_year current_year st f).total_found
          = st.total_found + f.rows.length
        ∧ (processCsvFile oracle start_year current_year st f).total_filtered
          = st.total_filtered
            + (f.rows.filter fun r =>
                yearInRange start_year current_year r.year
                  && acceptedB (classifyCsvRow oracle f.doi_col f.type_col r)).length)
      ∧ ((f.rows.filter fun r =>
            yearInRange start_year current_year r.year
              && acceptedB (classifyCsvRow oracle f.doi_col f.type_col r)).length = 0 →
        (processCsvFile oracle start_year current_year st f).file_stats = st.file_stats
        ∧ (processCsvFile oracle start_year current_year st f).total_found = st.total_found
        ∧ (processCsvFile oracle start_year current_year st f).total_filtered = st.total_filtered))
    ∧ ((0 < (bf.entries.filterMap (bibKeep oracle start_year current_year)).length →
        (processBibFile oracle start_year current_year bst bf).file_stats
          = bst.file_stats
            ++ [(bf.name,
                ⟨bf.entries.length,
                 (bf.entries.filterMap (bibKeep oracle start_year current_year)).length,
                 bf.entries.length
                   - (bf.entries.filterMap (bibKeep oracle start_year current_year)).length⟩)]
        ∧ (processBibFile oracle start_year current_year bst bf).total_found
          = bst.total_found + bf.entries.length
        ∧ (processBibFile oracle start_year current_year bst bf).total_filtered
          = bst.total_filtered
            + (bf.entries.filterMap (bibKeep oracle start_year current_year)).length)
      ∧ ((bf.entries.filterMap (bibKeep oracle start_year current_year)).length = 0 →
        (processBibFile oracle start_year current_year bst bf).file_stats = bst.file_stats
        ∧ (processBibFile oracle start_year current_year bst bf).total_found = bst.total_found
        ∧ (processBibFile oracle start_year current_year bst bf).total_filtered
          = bst.total_filtered)) := by
  have hres : (List.foldl (csvStep oracle f.doi_col f.type_col)
      (st.publication_types, [])
      (f.rows.filter fun r => yearInRange start_year current_year r.year)).2
      = f.rows.filter fun r =>
          yearInRange start_year current_year r.year
            && acceptedB (classifyCsvRow oracle f.doi_col f.type_col r) := by
    rw [csvLoop_retained, List.nil_append, filter_and_filter]
  have hresb : (List.foldl (bibStep oracle start_year current_year)
      (bst.publication_types, []) bf.entries).2
      = bf.entries.filterMap (bibKeep oracle start_year current_year) := by
    rw [bibLoop_retained, List.nil_append]
  constructor
  · constructor
    · intro hpos
      simp only [processCsvFile, hy, Bool.not_true, Bool.false_eq_true, if_false, hres]
      rw [if_pos hpos]
      exact ⟨rfl, rfl, rfl⟩
    · intro hzero
      simp only [processCsvFile, hy, Bool.not_true, Bool.false_eq_true, if_false, hres]
      rw [if_neg (by omega)]
      exact ⟨rfl, rfl, rfl⟩
  · constructor
    · intro hpos
      simp only [processBibFile, hresb]
      rw [if_pos hpos]
      exact ⟨rfl, rfl, rfl⟩
    · intro hzero
      simp only [processBibFile, hresb]
      rw [if_neg (by omega)]
      exact ⟨rfl, rfl, rfl⟩

/-- Witness for C6 at concrete inputs: a retaining file adds its record
count to `total_found`; a non-retaining file leaves it untouched. -/
theorem C6_stats_witness :
    (processCsvFile (fun _ => LookupResp.typeStr (codes "journal-article")) 2020 2025 initCsvState
        ⟨codes "a.csv", true, true, false, [⟨some 2020, some (codes "10.1/x"), Option.none⟩]⟩).total_found
      = initCsvState.total_found + ([⟨some 2020, some (codes "10.1/x"), Option.none⟩] : List CsvRow).length
    ∧ (processCsvFile (fun _ => LookupResp.fail) 2020 2025 initCsvState
        ⟨codes "b.csv", true, true, false, [⟨some 2020, some (codes "10.1/x"), Option.none⟩]⟩).total_found
      = initCsvState.total_found := by
  have h1 := C6_stats_only_when_retained (fun _ => LookupResp.typeStr (codes "journal-article"))
    2020 2025 initCsvState
    ⟨codes "a.csv", true, true, false, [⟨some 2020, some (codes "10.1/x"), Option.none⟩]⟩
    initBibState ⟨codes "b.bib", []⟩ rfl
  have h2 := C6_stats_only_when_retained (fun _ => LookupResp.fail)
    2020 2025 initCsvState
    ⟨codes "b.csv", true, true, false, [⟨some 2020, some (codes "10.1/x"), Option.none⟩]⟩
    initBibState ⟨codes "b.bib", []⟩ rfl
  exact ⟨(h1.1.1 (by decide)).2.1, (h2.1.2 (by decide)).2.1⟩

/-- C10: each retained BibTeX entry is written out with a
"publication_type" field set to its classification, whereas the CSV pipeline
appends retained rows exactly as they appear in the input. -/
theorem C10_output_mutation (oracle : Oracle) (start_year current_year : Int)
    (st : CsvState) (f : CsvFile) (bst : BibState) (bf : BibFile) :
    (∀ r : CsvRow, r ∈ (processCsvFile oracle start_year current_year st f).filtered_entries →
        r ∈ st.filtered_entries ∨ r ∈ f.rows)
    ∧ (∀ e2 : BibEntry,
        e2 ∈ (processBibFile oracle start_year current_year bst bf).filtered_entries →
        e2 ∈ bst.filtered_entries
        ∨ ∃ e ∈ bf.entries,
            e2 = setField e (codes "publication_type") (classifyBibDoi oracle e)
            ∧ acceptedB (classifyBibDoi oracle e) = true
            ∧ entryGet e2 (codes "publication_type") [] = classifyBibDoi oracle e) := by
  constructor
  · intro r hr
    by_cases hy : f.has_year_col = true
    · rw [processCsvFile_filtered oracle start_year current_year st f hy] at hr
      rcases List.mem_append.mp hr with h | h
      · exact Or.inl h
      · exact Or.inr (List.mem_of_mem_filter h)
    · have hf : f.has_year_col = false := by
        revert hy
        cases f.has_year_col <;> simp
      have he : processCsvFile oracle start_year current_year st f = st := by
        simp [processCsvFile, hf]
      rw [he] at hr
      exact Or.inl hr
  · intro e2 he2
    rw [processBibFile_filtered] at he2
    rcases List.mem_append.mp he2 with h | h
    · exact Or.inl h
    · right
      obtain ⟨e, he, hk⟩ := List.mem_filterMap.mp h
      refine ⟨e, he, ?_⟩
      unfold bibKeep at hk
      by_cases hc : (bibYearOkB start_year current_year e
          && acceptedB (classifyBibDoi oracle e)) = true
      · rw [if_pos hc] at hk
        have he2eq : e2 = setField e (codes "publication_type") (classifyBibDoi oracle e) :=
          ((Option.some.injEq _ _).mp hk).symm
        have hacc : acceptedB (classifyBibDoi oracle e) = true := by
          rw [Bool.and_eq_true] at hc
          exact hc.2
        exact ⟨he2eq, hacc, by rw [he2eq]; exact entryGet_setField e _ _ []⟩
      · rw [if_neg hc] at hk
        simp at hk

/-- Witness for C10: the single retained entry of a concrete BibTeX run is
its input entry extended with the "publication_type" field. -/
theorem C10_output_mutation_witness :
    [(codes "year", codes "2022"), (codes "doi", codes "10.1/x"),
        (codes "publication_type", codes "Conference Paper")]
      ∈ initBibState.filtered_entries
    ∨ ∃ e ∈ ([[(codes "year", codes "2022"), (codes "doi", codes "10.1/x")]] : List BibEntry),
        [(codes "year", codes "2022"), (codes "doi", codes "10.1/x"),
            (codes "publication_type", codes "Conference Paper")]
          = setField e (codes "publication_type")
              (classifyBibDoi (fun _ => LookupResp.typeStr (codes "proceedings-article")) e)
        ∧ acceptedB (classifyBibDoi (fun _ => LookupResp.typeStr (codes "proceedings-article")) e)
            = true
        ∧ entryGet
            [(codes "year", codes "2022"), (codes "doi", codes "10.1/x"),
              (codes "publication_type", codes "Conference Paper")]
            (codes "publication_type") []
          = classifyBibDoi (fun _ => LookupResp.typeStr (codes "proceedings-article")) e :=
  (C10_output_mutation (fun _ => LookupResp.typeStr (codes "proceedings-article")) 2020 2025
      initCsvState ⟨codes "a.csv", true, true, true, []⟩ initBibState
      ⟨codes "a.bib", [[(codes "year", codes "2022"), (codes "doi", codes "10.1/x")]]⟩).2
    _ (by decide)

/-- C9: the dedup pipeline's required-columns expression
`'title' and 'author' and 'publication' and 'doi' and 'url' not in df.columns`
is truthy (triggering the fatal rejection) exactly when, after column
normalization, no column named "url" exists; a file with a "url" column but
without "title", "author", "publication" or "doi" passes, and one with all
four but no "url" is still rejected. -/
theorem C9_required_columns_degenerate :
    (∀ cols : List Str,
      pyTruthyB (requiredColumnsCheck (normalize_columns cols))
        = !((normalize_columns cols).contains (codes "url")))
    ∧ pyTruthyB (requiredColumnsCheck (normalize_columns [codes "Url"])) = false
    ∧ pyTruthyB (requiredColumnsCheck (normalize_columns
        [codes "title", codes "author", codes "publication", codes "doi"])) = true := by
  refine ⟨fun cols => rfl, by decide, by decide⟩
